import Mathlib

/-!
Verification development for `src/python/ora/killfeed.py` (the `KillfeedAnalyzer`
and `KillfeedIconMatch` classes).

Shallow embedding conventions:
* Machine floats (template-match scores, normalized edge sums, color pixels)
  are embedded as `ℚ`/`ℤ`; all decisions in the source are order comparisons,
  which `ℚ` reproduces.
* External collaborators enter as parameters:
  - `cv2.Canny` is a parameter `canny : Image → List (List ℕ)` producing the
    binary edge map that `_validate_edge` consumes (everything after the Canny
    call is embedded from the source);
  - `cv2.matchTemplate`/`_match_template_score` on a crop at column `x`
    against the template named `n` is a parameter `tmScore : ℕ → String → ℚ`;
  - the full-image correlation surface of `cv2.matchTemplate` for template `n`
    is a parameter `surface : String → List ℚ` (the single row of the result);
  - layout constants (`fstruc.KILLFEED_MAX_WIDTH`,
    `fstruc.KILLFEED_CHARACTER2_MAX_WIDTH`, `icons.ICON_CHARACTER_WIDTH`,
    `icons.ICON_CHARACTER_HEIGHT`), the template-name iteration order of
    `icons.ICONS_CHARACTER.iteritems()`, and the game context
    (`frame_analyzer.game`, `frame_analyzer.time`) are fields of `Ctx`.
* Python list indexing (negative indices wrap) and slice semantics
  (out-of-range bounds clamp) are embedded by `pyNth`/`pySlice`.
-/

set_option allowUnsafeReducibility true in
attribute [semireducible] Rat.mul Rat.inv Rat.div Rat.add Rat.sub Rat.neg Rat.normalize Rat.blt

namespace ORA

/-- Pixel color: the channel values of one pixel of `killfeed_image`, as integers. -/
abbrev Color : Type := ℤ × ℤ × ℤ

/-- Row image `killfeed_image`: a list of pixel rows. -/
abbrev Image : Type := List (List Color)

/-- Python indexing `l[i]` on a boolean list: a negative index wraps
(`l[-1]` is the last element).  An index out of range even after wrapping
raises `IndexError` in Python; it is modelled as `false` and is not reached
in the modelled runs. -/
def pyNth (l : List Bool) (i : ℤ) : Bool :=
  let j := if i < 0 then i + l.length else i
  if 0 ≤ j then l.getD j.toNat false else false

/-- Python indexing `row[i]` on a pixel row, with the same wrapping rule as
`pyNth`; out of range (an `IndexError` in Python) is modelled as a black pixel. -/
def pyNthColor (row : List Color) (i : ℤ) : Color :=
  let j := if i < 0 then i + row.length else i
  if 0 ≤ j then row.getD j.toNat (0, 0, 0) else (0, 0, 0)

/-- Python slice `l[a:b]` for nonnegative bounds: out-of-range bounds clamp. -/
def pySlice (l : List α) (a b : ℕ) : List α := (l.take b).drop a

/-- The `KillfeedIconMatch` record: recognized object name, match score, and
the x coordinate of the match.  `x` is an integer because the placeholder
matches in `get_killfeed` carry `x = -1`. -/
structure KillfeedIconMatch where
  object_name : String
  score : ℚ
  x : ℤ
deriving DecidableEq

/-- Width `shape[1]` of a numpy image stored as a list of rows. -/
def imgWidth (img : List (List ℕ)) : ℕ := (img.headD []).length

/-- Per-column normalized edge sums of `_validate_edge`: `edge_span[i, j]`
is `edge_image[i][j-1] + edge_image[i][j]` for `j ≥ 1` (and stays `0` at
`j = 0`, since the loop starts at `j = 1`); the spans are summed down each
column and divided by `255 * ICON_CHARACTER_HEIGHT`. -/
def edgeSums (edge_image : List (List ℕ)) (ih : ℕ) : List ℚ :=
  (List.range (imgWidth edge_image)).map fun j =>
    if j = 0 then 0
    else (((edge_image.map fun row => row.getD (j - 1) 0 + row.getD j 0).sum : ℕ) : ℚ)
      / (255 * (ih : ℚ))

/-- Python `max` over a slice of the (nonnegative) normalized edge sums.
The fold with seed `0` agrees with Python `max` on every nonempty list of
nonnegative values; Python raises on an empty list, which is not reached
when the row image has its nominal width. -/
def listMax (l : List ℚ) : ℚ := l.foldl max 0

/-- The `_validate_edge` method, after the `cv2.Canny` call (the Canny output
is `canny img`): two leading `False` entries, one computed entry for each
`i` in `range(2, KILLFEED_MAX_WIDTH - 38)`, and six trailing `False` entries.
`ih` is `ICON_CHARACTER_HEIGHT` and `W` is `KILLFEED_MAX_WIDTH`. -/
def validate_edge (ih W : ℕ) (canny : Image → List (List ℕ)) (img : Image) : List Bool :=
  let es := edgeSums (canny img) ih
  let threshold_left : ℚ := ((ih : ℚ) - 2) / (ih : ℚ)
  let threshold_right : ℚ := ((ih : ℚ) - 5) / (ih : ℚ)
  ([false, false] ++ (List.range' 2 (W - 38 - 2)).map fun i =>
    decide (threshold_left ≤ listMax (pySlice es (i - 2) (i + 2)) ∧
            threshold_right ≤ listMax (pySlice es (i + 33) (i + 37))))
  ++ List.replicate 6 false

/-- Inner loop of `_get_icons_weights_discrete`: the best `(name, score)`
over all templates for the crop at column `x`, starting from
`best_score = -1`, `best_name = ""`; a template wins only on a strictly
greater score. -/
def bestTemplate (tmScore : ℕ → String → ℚ) (templates : List String) (x : ℕ) :
    String × ℚ :=
  templates.foldl
    (fun best name => if tmScore x name > best.2 then (name, tmScore x name) else best)
    ("", -1)

/-- The `result_raw` list of `_get_icons_weights_discrete`: one
`KillfeedIconMatch` per column where `edge_validation[x]` holds. -/
def resultRaw (edge : List Bool) (tmScore : ℕ → String → ℚ) (templates : List String) :
    List KillfeedIconMatch :=
  (List.range edge.length).filterMap fun x =>
    if edge.getD x false then
      some ⟨(bestTemplate tmScore templates x).1, (bestTemplate tmScore templates x).2, (x : ℤ)⟩
    else none

/-- Insertion of a match into a score-descending list, placing the new
element after every element whose score is greater than or equal to its own
(a new element passes an existing one only on a strictly greater score). -/
def insDesc (c : KillfeedIconMatch) : List KillfeedIconMatch → List KillfeedIconMatch
  | [] => [c]
  | b :: bs => if c.score > b.score then c :: b :: bs else b :: insDesc c bs

/-- Left fold of `insDesc`: inserting the elements of `items` one by one into
`init`.  Starting from a sorted `init` this is the stable descending
insertion sort (later elements go after equal-scored earlier ones), the
same ordering as Python's stable `list.sort(key=get_score, reverse=True)`. -/
def insertAll (items init : List KillfeedIconMatch) : List KillfeedIconMatch :=
  items.foldl (fun l c => insDesc c l) init

/-- The sort `result_raw.sort(key=KillfeedIconMatch.get_score, reverse=True)`:
stable, descending by score. -/
def sortDesc (l : List KillfeedIconMatch) : List KillfeedIconMatch := insertAll l []

/-- Slice assignment `mask[a:b] = [True]*(b-a)` on a boolean list. -/
def setTrue (mask : List Bool) (a b : ℕ) : List Bool :=
  (List.range mask.length).map fun j => if a ≤ j ∧ j < b then true else mask.getD j false

/-- Suppression-window marking of `_get_icons_weights_discrete`:
`mask[max(0, x-5) : min(len(mask), x+5)] = True`. -/
def nmsMask (mask : List Bool) (x : ℤ) : List Bool :=
  setTrue mask (max 0 (x - 5)).toNat (min (mask.length : ℤ) (x + 5)).toNat

/-- Non-maximal-suppression loop of `_get_icons_weights_discrete`: walk the
score-sorted matches, skip a match whose column is already masked, otherwise
mark its window and accept it. -/
def nmsLoop : List KillfeedIconMatch → List Bool → List KillfeedIconMatch
  | [], _ => []
  | m :: rest, mask =>
    if pyNth mask m.x then nmsLoop rest mask
    else m :: nmsLoop rest (nmsMask mask m.x)

/-- The `_get_icons_weights_discrete` method. -/
def iconsWeightsDiscrete (edge : List Bool) (tmScore : ℕ → String → ℚ)
    (templates : List String) : List KillfeedIconMatch :=
  nmsLoop (sortDesc (resultRaw edge tmScore templates)) (List.replicate edge.length false)

/-- Location of the maximum returned by `cv2.minMaxLoc` on a single-row
correlation surface: the first index attaining the maximum (`0` on an empty
surface). -/
def firstArgmax (s : List ℚ) : ℕ :=
  (List.range s.length).foldl (fun best j => if s.getD j 0 > s.getD best 0 then j else best) 0

/-- Slice assignment `match_result[0, a:b] = [-1] * (b - a)` on the
correlation surface. -/
def maskSurface (s : List ℚ) (a b : ℕ) : List ℚ :=
  (List.range s.length).map fun j => if a ≤ j ∧ j < b then -1 else s.getD j 0

/-- The `_get_icons_weights_full` method: for each template take the global
best column of its correlation surface (gated by the edge mask), mask
`[max(x-5, 0), min(x+5+1, KILLFEED_MAX_WIDTH - ICON_CHARACTER_WIDTH))` with
the sentinel `-1`, and take the next best column (again gated by the edge
mask).  `W` is `KILLFEED_MAX_WIDTH` and `iw` is `ICON_CHARACTER_WIDTH`. -/
def iconsWeightsFull (W iw : ℕ) (edge : List Bool) (surface : String → List ℚ)
    (templates : List String) : List KillfeedIconMatch :=
  templates.foldl
    (fun result name =>
      let s := surface name
      let x1 := firstArgmax s
      let result1 :=
        if pyNth edge (x1 : ℤ) then result ++ [⟨name, s.getD x1 0, (x1 : ℤ)⟩] else result
      let s2 := maskSurface s (x1 - 5) (min (x1 + 6) (W - iw))
      let x2 := firstArgmax s2
      if pyNth edge (x2 : ℤ) then result1 ++ [⟨name, s2.getD x2 0, (x2 : ℤ)⟩] else result1)
    []

/-- The `_get_icons_weights` dispatcher: the discrete (sparse) scorer when at
most 7 mask entries are valid, the full (dense) scorer otherwise. -/
def iconsWeights (W iw : ℕ) (edge : List Bool) (tmScore : ℕ → String → ℚ)
    (surface : String → List ℚ) (templates : List String) : List KillfeedIconMatch :=
  if edge.count true ≤ 7 then iconsWeightsDiscrete edge tmScore templates
  else iconsWeightsFull W iw edge surface templates

/-- The placeholder `KillfeedIconMatch("", -1, -1)` seeding `best_matches`. -/
def seedMatch : KillfeedIconMatch := ⟨"", -1, -1⟩

/-- One iteration of the top-3 insertion scan in `get_killfeed`, on the
state `best_matches` kept as a triple (the list always has length 3):
`insert(0, item); pop()`, `insert(1, item); pop()`, or `pop(); append(item)`,
each guarded by a strictly-greater score comparison. -/
def top3Step (b : KillfeedIconMatch × KillfeedIconMatch × KillfeedIconMatch)
    (c : KillfeedIconMatch) :
    KillfeedIconMatch × KillfeedIconMatch × KillfeedIconMatch :=
  if c.score > b.1.score then (c, b.1, b.2.1)
  else if c.score > b.2.1.score then (b.1, c, b.2.1)
  else if c.score > b.2.2.score then (b.1, b.2.1, c)
  else b

/-- The full top-3 scan of `get_killfeed` over `icons_weights`. -/
def bestMatches (items : List KillfeedIconMatch) :
    KillfeedIconMatch × KillfeedIconMatch × KillfeedIconMatch :=
  items.foldl top3Step (seedMatch, seedMatch, seedMatch)

/-- View of the `best_matches` triple as the 3-element list it models. -/
def tripleList (b : KillfeedIconMatch × KillfeedIconMatch × KillfeedIconMatch) :
    List KillfeedIconMatch := [b.1, b.2.1, b.2.2]

/-- The `matched_icons` filter loop of `get_killfeed`: skip an item with
score below `0.6`, keep it when `edge_validation[item.x]` holds. -/
def matchedIcons (edge : List Bool)
    (b : KillfeedIconMatch × KillfeedIconMatch × KillfeedIconMatch) :
    List KillfeedIconMatch :=
  (tripleList b).foldl
    (fun acc item =>
      if item.score < 3 / 5 then acc
      else if pyNth edge item.x then acc ++ [item] else acc)
    []

/-- The game context consumed through `frame_analyzer.game`: two team
reference colors and two team name strings. -/
structure Game where
  color_team1 : Color
  color_team2 : Color
  name_team1 : String
  name_team2 : String
deriving DecidableEq

/-- Immutable configuration of one analyzer instance: the layout constants
(`fstruc` and `icons` fields), the template-name iteration order, the game
context and the frame timestamp. -/
structure Ctx where
  KILLFEED_MAX_WIDTH : ℕ
  KILLFEED_CHARACTER2_MAX_WIDTH : ℕ
  ICON_CHARACTER_WIDTH : ℕ
  ICON_CHARACTER_HEIGHT : ℕ
  templates : List String
  game : Game
  time : ℚ

/-- Modelled from the spec: `util.color_distance` is imported from the
repository's `util` module, which is not under `src/`.  Section 4.6 of the
spec specifies "color distance (e.g., Euclidean in color space)"; the
squared Euclidean distance over the three channels is used here, which
induces exactly the same order comparisons (and ties) as the Euclidean
distance itself. -/
def color_distance (a b : Color) : ℤ :=
  (a.1 - b.1) ^ 2 + (a.2.1 - b.2.1) ^ 2 + (a.2.2 - b.2.2) ^ 2

/-- The sampling column chosen by `_get_icon_team`: `icon.x - 5` for the
left position (`position = 0`), `icon.x + ICON_CHARACTER_WIDTH + 5` for the
right position (`position = 1`). -/
def sample_x (ctx : Ctx) (icon : KillfeedIconMatch) (position : ℕ) : ℤ :=
  if position = 0 then icon.x - 5
  else icon.x + (ctx.ICON_CHARACTER_WIDTH : ℤ) + 5

/-- Pixel read `killfeed_image[0][x]` of `_get_icon_team`. -/
def pixelAt (img : Image) (x : ℤ) : Color := pyNthColor (img.headD []) x

/-- Shared tail of `_get_icon_team`: distances from the sampled color to the
two team reference colors; team one's name wins when its distance is less
than or equal to team two's. -/
def teamFromPixel (g : Game) (c : Color) : String :=
  if color_distance c g.color_team1 ≤ color_distance c g.color_team2 then g.name_team1
  else g.name_team2

/-- The `_get_icon_team` method.  `position` is `KillfeedAnalyzer.LEFT = 0`
or `KillfeedAnalyzer.RIGHT = 1`; any other value raises `KeyError` in the
source, modelled as `none`. -/
def get_icon_team (ctx : Ctx) (img : Image) (icon : KillfeedIconMatch)
    (position : ℕ) : Option String :=
  if position = 0 ∨ position = 1 then
    some (teamFromPixel ctx.game (pixelAt img (sample_x ctx icon position)))
  else none

/-- Event constants `overwatch.SUICIDE`, `overwatch.ELIMINATION`,
`overwatch.RESURRECTION` (distinct constants of the external `overwatch`
module). -/
inductive EventKind where
  | suicide
  | elimination
  | resurrection
deriving DecidableEq

/-- Modelled from the spec: the `overwatch.Killfeed` record lives in the
repository's `overwatch` module, which is not under `src/`.  Per the spec it
carries the event kind, the timestamp, one or two character names and zero
to two team labels; the fields mirror the keyword arguments used at the two
construction sites in `_generate_killfeed`. -/
structure Killfeed where
  sname : String
  time : ℚ
  character1 : Option String
  character2 : Option String
  team1 : Option String
  team2 : Option String
  event : EventKind
deriving DecidableEq

/-- The `_generate_killfeed` method.  A single icon yields a suicide event
classified with the right-position rule; two icons are swapped when the
first sits strictly to the right of the second, then classified left/right;
equal teams yield a resurrection, different teams an elimination.  The
source would raise `IndexError` on an empty list (unreachable from
`get_killfeed`), modelled as `none`. -/
def generate_killfeed (ctx : Ctx) (img : Image) (matched : List KillfeedIconMatch) :
    Option Killfeed :=
  match matched with
  | [m] =>
    (get_icon_team ctx img m 1).map fun team =>
      { sname := "test", time := ctx.time, character1 := none,
        character2 := some m.object_name, team1 := none, team2 := some team,
        event := EventKind.suicide }
  | m1 :: m2 :: _ =>
    let p := if m1.x > m2.x then (m2, m1) else (m1, m2)
    (get_icon_team ctx img p.1 0).bind fun t1 =>
      (get_icon_team ctx img p.2 1).map fun t2 =>
        { sname := "test", time := ctx.time,
          character1 := some p.1.object_name, character2 := some p.2.object_name,
          team1 := some t1, team2 := some t2,
          event := if t1 = t2 then EventKind.resurrection else EventKind.elimination }
  | [] => none

/-- Decision tail of `get_killfeed` on the computed `matched_icons` list:
no match yields no event; a single match left of
`KILLFEED_MAX_WIDTH - KILLFEED_CHARACTER2_MAX_WIDTH` is deferred (no event),
otherwise generates a killfeed; two or more matches generate a killfeed from
the best two (`matched_icons[:2]`). -/
def decisionStep (ctx : Ctx) (img : Image) (matched : List KillfeedIconMatch) :
    Option Killfeed :=
  if matched.length = 0 then none
  else if matched.length = 1 then
    if (matched.headD seedMatch).x <
        (ctx.KILLFEED_MAX_WIDTH : ℤ) - (ctx.KILLFEED_CHARACTER2_MAX_WIDTH : ℤ) then none
    else generate_killfeed ctx img matched
  else generate_killfeed ctx img (matched.take 2)

/-- The computing path of `get_killfeed` (everything after the cache check):
edge validation, scoring, top-3 selection, threshold/edge filtering, and the
decision tail. -/
def get_killfeed_compute (ctx : Ctx) (canny : Image → List (List ℕ))
    (tmScore : ℕ → String → ℚ) (surface : String → List ℚ) (img : Image) :
    Option Killfeed :=
  decisionStep ctx img
    (matchedIcons (validate_edge ctx.ICON_CHARACTER_HEIGHT ctx.KILLFEED_MAX_WIDTH canny img)
      (bestMatches
        (iconsWeights ctx.KILLFEED_MAX_WIDTH ctx.ICON_CHARACTER_WIDTH
          (validate_edge ctx.ICON_CHARACTER_HEIGHT ctx.KILLFEED_MAX_WIDTH canny img)
          tmScore surface ctx.templates)))

/-- Mutable state of one `KillfeedAnalyzer` instance: the `self.killfeed`
attribute, initialized to `None` in `__init__` and never assigned afterwards
anywhere in the source. -/
structure AnalyzerState where
  killfeed : Option Killfeed
deriving DecidableEq

/-- The `get_killfeed` method: return the cached attribute when it is not
`None`, otherwise compute.  The returned state mirrors the instance
attributes after the call; the source contains no assignment to
`self.killfeed`, so the state comes back unchanged on every path. -/
def get_killfeed (ctx : Ctx) (canny : Image → List (List ℕ))
    (tmScore : ℕ → String → ℚ) (surface : String → List ℚ) (img : Image)
    (s : AnalyzerState) : Option Killfeed × AnalyzerState :=
  match s.killfeed with
  | some k => (some k, s)
  | none => (get_killfeed_compute ctx canny tmScore surface img, s)

/-! Concrete instances used to instantiate the theorems below. -/

/-- Trivial Canny oracle: an empty edge map. -/
def canny0 : Image → List (List ℕ) := fun _ => []

/-- Empty row image. -/
def img0 : Image := []

/-- Canny output row with full-height vertical edges at columns 10 and 45. -/
def cannyRow6 : List ℕ := (List.range 50).map fun j => if j = 10 ∨ j = 45 then 255 else 0

/-- Canny oracle producing a 6-row, 50-column edge map with vertical edges at
columns 10 and 45; under it exactly the columns 9, 10 and 11 pass
`_validate_edge` for a 50-pixel row. -/
def canny6 : Image → List (List ℕ) := fun _ => List.replicate 6 cannyRow6

/-- All-black 1-row, 50-column row image. -/
def img6 : Image := [List.replicate 50 ((0, 0, 0) : Color)]

/-- Template-match oracle scoring 9/10 at column 11 and 1/10 elsewhere. -/
def tmScore6 : ℕ → String → ℚ := fun x _ => if x = 11 then 9 / 10 else 1 / 10

/-- Correlation-surface oracle (unused on the discrete path). -/
def surface0 : String → List ℚ := fun _ => []

/-- Concrete context: row width 50, second-icon max width 45, template width
33, template height 6, one template, black team one and gray team two. -/
def ctx6 : Ctx :=
  { KILLFEED_MAX_WIDTH := 50, KILLFEED_CHARACTER2_MAX_WIDTH := 45,
    ICON_CHARACTER_WIDTH := 33, ICON_CHARACTER_HEIGHT := 6,
    templates := ["a"],
    game := { color_team1 := (0, 0, 0), color_team2 := (9, 9, 9),
              name_team1 := "T1", name_team2 := "T2" },
    time := 0 }

/-- Edge mask of length 20 that is valid exactly at columns 6 and 11. -/
def edgeC4 : List Bool := (List.range 20).map fun j => decide (j = 6 ∨ j = 11)

/-- Template-match oracle scoring 9/10 at column 6, 8/10 at column 11. -/
def tmScoreC4 : ℕ → String → ℚ :=
  fun x _ => if x = 6 then 9 / 10 else if x = 11 then 8 / 10 else 0

/-- Edge mask of length 13 that is valid exactly at column 3. -/
def edgeF4 : List Bool := (List.range 13).map fun j => decide (j = 3)

/-- Correlation surface peaking at column 3 (9/10) with a lower secondary
peak at column 10 (2/10), for every template. -/
def surfF4 : String → List ℚ :=
  fun _ => (List.range 13).map fun j => if j = 3 then 9 / 10 else if j = 10 then 2 / 10 else 0

/-- Single-entry edge mask that validates column 0. -/
def edgeC3 : List Bool := [true]

/-- Canny output row with full-height vertical edges at columns 1, 8, 36
and 45. -/
def cannyRow10 : List ℕ :=
  (List.range 50).map fun j => if j = 1 ∨ j = 8 ∨ j = 36 ∨ j = 45 then 255 else 0

/-- Canny oracle under which exactly the columns 2, 3, 4, 9, 10 and 11 pass
`_validate_edge` for a 50-pixel row. -/
def canny10 : Image → List (List ℕ) := fun _ => List.replicate 6 cannyRow10

/-- Template-match oracle scoring 9/10 at column 2, 8/10 at column 9 and
1/10 elsewhere. -/
def tmScore10 : ℕ → String → ℚ :=
  fun x _ => if x = 2 then 9 / 10 else if x = 9 then 8 / 10 else 1 / 10

/-- Game with team colors (0,0,0) and (2,0,0): the pixel (1,0,0) is exactly
equidistant from both. -/
def game9 : Game :=
  { color_team1 := (0, 0, 0), color_team2 := (2, 0, 0),
    name_team1 := "T1", name_team2 := "T2" }

/-- Context with template width 3 and the tie-prone `game9`. -/
def ctx9 : Ctx :=
  { KILLFEED_MAX_WIDTH := 50, KILLFEED_CHARACTER2_MAX_WIDTH := 45,
    ICON_CHARACTER_WIDTH := 3, ICON_CHARACTER_HEIGHT := 6,
    templates := ["a"], game := game9, time := 0 }

/-- Row image whose first row holds the pixel (1,0,0) at column 8 and black
pixels elsewhere. -/
def img9 : Image := [(List.range 9).map fun j => if j = 8 then ((1, 0, 0) : Color) else (0, 0, 0)]

/-- Icon match at column 0: its right-position sample lands on column 8 of
`img9`. -/
def icon9 : KillfeedIconMatch := ⟨"a", 1, 0⟩

/-- Icon match at column 9: its left-position sample lands on column 4 of
`img9`, a black pixel that is strictly closer to team one's color. -/
def icon9b : KillfeedIconMatch := ⟨"a", 1, 9⟩

/-- The single match accepted in the concrete `canny6`/`tmScore6` run. -/
def iconA6 : KillfeedIconMatch := ⟨"a", 9 / 10, 11⟩

/-- Swap of the two team reference colors in the context, leaving every
other input (names, layout, templates, time) unchanged. -/
def ctxSwap (ctx : Ctx) : Ctx :=
  { ctx with game := { ctx.game with color_team1 := ctx.game.color_team2,
                                     color_team2 := ctx.game.color_team1 } }

/-! Helper lemmas. -/

/-- Reading any position of an all-`false` replicate list yields `false`. -/
lemma replicate_false_getD (n k : ℕ) : (List.replicate n false).getD k false = false := by
  rw [List.getD_eq_getElem?_getD, List.getElem?_replicate]
  split <;> rfl

/-- Structural decomposition of `validate_edge`: two leading `false`
entries, a computed middle of length `W - 40`, six trailing `false`
entries. -/
lemma validate_edge_decomp (ih W : ℕ) (canny : Image → List (List ℕ)) (img : Image) :
    ∃ mid : List Bool, mid.length = W - 40 ∧
      validate_edge ih W canny img = ([false, false] ++ mid) ++ List.replicate 6 false := by
  refine ⟨_, ?_, rfl⟩
  simp [Nat.sub_sub]

/-- The `matched_icons` loop is the filter keeping exactly the items with
score at least 3/5 whose column passes the edge mask. -/
lemma matchedIcons_foldl_filter (edge : List Bool) (acc l : List KillfeedIconMatch) :
    l.foldl
      (fun acc item =>
        if item.score < 3 / 5 then acc
        else if pyNth edge item.x then acc ++ [item] else acc)
      acc
    = acc ++ l.filter (fun m => decide (3 / 5 ≤ m.score) && pyNth edge m.x) := by
  induction l generalizing acc with
  | nil => simp
  | cons a l ih =>
    simp only [List.foldl_cons, List.filter_cons]
    by_cases h1 : a.score < 3 / 5
    · rw [if_pos h1, ih]
      have hc : (decide (3 / 5 ≤ a.score) && pyNth edge a.x) = false := by
        simp [not_le.mpr h1]
      rw [hc]
      simp
    · rw [if_neg h1]
      by_cases h2 : pyNth edge a.x = true
      · rw [if_pos h2, ih]
        have hc : (decide (3 / 5 ≤ a.score) && pyNth edge a.x) = true := by
          simp [h2, le_of_not_lt h1]
        rw [hc]
        simp
      · rw [if_neg h2, ih]
        have hc : (decide (3 / 5 ≤ a.score) && pyNth edge a.x) = false := by
          simp [Bool.eq_false_iff.mpr h2]
        rw [hc]
        simp

/-! Claim theorems. -/

/-- C1 counterexample: for the 50-pixel row width the edge mask produced by
`_validate_edge` has length 18 = 50 - 32, not 50: the claim that its length
equals the row width `KILLFEED_MAX_WIDTH` is false. -/
theorem C1_mask_length_counterexample :
    (validate_edge 6 50 canny0 img0).length ≠ 50 := by decide

/-- C1 (amended): for every row image and template height, with row width
`W ≥ 40`, the boolean edge mask returned by `_validate_edge` has length
`W - 32` (two leading entries, `W - 40` computed entries, six trailing
entries), with columns 0-1 and every column from `W - 38` on (in
particular the last 6 entries) always marked invalid. -/
theorem C1_mask_shape (ih W : ℕ) (canny : Image → List (List ℕ)) (img : Image)
    (hW : 40 ≤ W) :
    (validate_edge ih W canny img).length = W - 32 ∧
    (validate_edge ih W canny img).getD 0 false = false ∧
    (validate_edge ih W canny img).getD 1 false = false ∧
    ∀ k, W - 38 ≤ k → (validate_edge ih W canny img).getD k false = false := by
  obtain ⟨mid, hlen, hv⟩ := validate_edge_decomp ih W canny img
  rw [hv]
  have hcons : ([false, false] ++ mid) ++ List.replicate 6 false
      = false :: false :: (mid ++ List.replicate 6 false) := by simp
  refine ⟨?_, ?_, ?_, ?_⟩
  · simp only [List.length_append, List.length_replicate, List.length_cons,
      List.length_nil, hlen]
    omega
  · rw [hcons]; rfl
  · rw [hcons]; rfl
  · intro k hk
    have hk2 : ([false, false] ++ mid).length ≤ k := by
      simp only [List.length_append, List.length_cons, List.length_nil, hlen]
      omega
    rw [List.getD_append_right _ _ _ _ hk2, replicate_false_getD]

/-- C1 witness: the amended shape facts hold at the concrete instance with
template height 6 and row width 50. -/
theorem C1_mask_shape_witness :
    40 ≤ 50 ∧
    ((validate_edge 6 50 canny0 img0).length = 50 - 32 ∧
     (validate_edge 6 50 canny0 img0).getD 0 false = false ∧
     (validate_edge 6 50 canny0 img0).getD 1 false = false ∧
     ∀ k, 50 - 38 ≤ k → (validate_edge 6 50 canny0 img0).getD k false = false) :=
  ⟨by norm_num, C1_mask_shape 6 50 canny0 img0 (by norm_num)⟩

/-- C2 (code bug): `get_killfeed` never updates the analyzer state — the
source checks `self.killfeed` but contains no assignment to it — so the
state after any call equals the state before it, and a call on a fresh
instance (cached value `None`) always runs the full computation.  The
claimed memoization therefore never takes effect: a second call on a fresh
instance recomputes instead of returning a stored first result. -/
theorem C2_cache_never_written (ctx : Ctx) (canny : Image → List (List ℕ))
    (tmScore : ℕ → String → ℚ) (surface : String → List ℚ) (img : Image)
    (s : AnalyzerState) :
    (get_killfeed ctx canny tmScore surface img s).2 = s ∧
    (get_killfeed ctx canny tmScore surface img ⟨none⟩).1 =
      get_killfeed_compute ctx canny tmScore surface img := by
  refine ⟨?_, by simp [get_killfeed]⟩
  cases h : s.killfeed <;> simp [get_killfeed, h]

/-- C3: a candidate among the selector's top 3 is accepted exactly when its
score is at least 0.6 and the edge mask holds at its column; a candidate
with score exactly 0.6 (= 3/5) is accepted, one with score 0.5999 is
rejected. -/
theorem C3_threshold_and_edge_filter :
    (∀ (edge : List Bool)
       (b : KillfeedIconMatch × KillfeedIconMatch × KillfeedIconMatch),
      matchedIcons edge b =
        (tripleList b).filter (fun m => decide (3 / 5 ≤ m.score) && pyNth edge m.x)) ∧
    matchedIcons edgeC3 (⟨"a", 3 / 5, 0⟩, seedMatch, seedMatch) = [⟨"a", 3 / 5, 0⟩] ∧
    matchedIcons edgeC3 (⟨"a", 5999 / 10000, 0⟩, seedMatch, seedMatch) = [] := by
  refine ⟨fun edge b => ?_, by decide, by decide⟩
  unfold matchedIcons
  simpa using matchedIcons_foldl_filter edge [] (tripleList b)

/-- C7: with two accepted matches, `_generate_killfeed` orders the icons
left-to-right by column (swapping exactly when the first is strictly right
of the second), classifies the left icon with the left-position rule and the
right icon with the right-position rule, and emits a resurrection when the
two teams agree, an elimination otherwise. -/
theorem C7_two_icons_order_and_kind (ctx : Ctx) (img : Image)
    (m1 m2 : KillfeedIconMatch) :
    ∃ a b : KillfeedIconMatch,
      (a, b) = (if m1.x > m2.x then (m2, m1) else (m1, m2)) ∧
      a.x ≤ b.x ∧
      generate_killfeed ctx img [m1, m2] =
        some { sname := "test", time := ctx.time,
               character1 := some a.object_name, character2 := some b.object_name,
               team1 := some (teamFromPixel ctx.game (pixelAt img (sample_x ctx a 0))),
               team2 := some (teamFromPixel ctx.game (pixelAt img (sample_x ctx b 1))),
               event :=
                 if teamFromPixel ctx.game (pixelAt img (sample_x ctx a 0)) =
                     teamFromPixel ctx.game (pixelAt img (sample_x ctx b 1))
                 then EventKind.resurrection else EventKind.elimination } := by
  by_cases h : m1.x > m2.x
  · refine ⟨m2, m1, by rw [if_pos h], le_of_lt h, ?_⟩
    simp [generate_killfeed, get_icon_team, h]
  · refine ⟨m1, m2, by rw [if_neg h], not_lt.mp h, ?_⟩
    simp [generate_killfeed, get_icon_team, h]

/-- C8: team classification samples the pixel at column `icon.x - 5` for the
left position and `icon.x + ICON_CHARACTER_WIDTH + 5` for the right
position, and returns team one's name exactly when the sampled pixel's
color distance to team one's reference color is less than or equal to its
distance to team two's (so an exact tie yields team one). -/
theorem C8_team_rule (ctx : Ctx) (img : Image) (icon : KillfeedIconMatch)
    (hn : ctx.game.name_team1 ≠ ctx.game.name_team2) :
    sample_x ctx icon 0 = icon.x - 5 ∧
    sample_x ctx icon 1 = icon.x + (ctx.ICON_CHARACTER_WIDTH : ℤ) + 5 ∧
    ∀ position, position = 0 ∨ position = 1 →
      (get_icon_team ctx img icon position = some ctx.game.name_team1 ↔
        color_distance (pixelAt img (sample_x ctx icon position)) ctx.game.color_team1 ≤
        color_distance (pixelAt img (sample_x ctx icon position)) ctx.game.color_team2) := by
  refine ⟨rfl, rfl, ?_⟩
  intro position hpos
  have hsome : get_icon_team ctx img icon position =
      some (teamFromPixel ctx.game (pixelAt img (sample_x ctx icon position))) := by
    rcases hpos with h | h <;> simp [get_icon_team, h]
  rw [hsome]
  unfold teamFromPixel
  split_ifs with hd
  · exact iff_of_true rfl hd
  · exact iff_of_false (fun hEq => hn (Option.some_injective _ hEq).symm) hd

/-- C8 witness: the sampling and comparison facts at the concrete context
`ctx9` (distinct team names), image `img9` and icon `icon9`. -/
theorem C8_team_rule_witness :
    ctx9.game.name_team1 ≠ ctx9.game.name_team2 ∧
    (sample_x ctx9 icon9 0 = icon9.x - 5 ∧
     sample_x ctx9 icon9 1 = icon9.x + (ctx9.ICON_CHARACTER_WIDTH : ℤ) + 5 ∧
     ∀ position, position = 0 ∨ position = 1 →
       (get_icon_team ctx9 img9 icon9 position = some ctx9.game.name_team1 ↔
         color_distance (pixelAt img9 (sample_x ctx9 icon9 position)) ctx9.game.color_team1 ≤
         color_distance (pixelAt img9 (sample_x ctx9 icon9 position)) ctx9.game.color_team2)) :=
  ⟨by decide, C8_team_rule ctx9 img9 icon9 (by decide)⟩

/-- C9 counterexample: with team colors (0,0,0) and (2,0,0) the sampled
pixel (1,0,0) is exactly equidistant from both; the original run labels the
icon with team one's name and so does the run with the two reference colors
swapped, instead of the swapped label the claim demands. -/
theorem C9_swap_counterexample :
    get_icon_team ctx9 img9 icon9 1 = some (ctx9.game.name_team1) ∧
    get_icon_team (ctxSwap ctx9) img9 icon9 1 = some (ctx9.game.name_team1) ∧
    ¬ get_icon_team (ctxSwap ctx9) img9 icon9 1 = some (ctx9.game.name_team2) ∧
    ctx9.game.name_team1 ≠ ctx9.game.name_team2 := by decide

/-- C9 (amended): swapping the two team reference colors (all other inputs
identical) swaps the team label produced for an icon whenever the sampled
pixel is not exactly equidistant from the two reference colors; at an exact
tie both runs return team one's name, so the labels do not swap there. -/
theorem C9_swap_amended (ctx : Ctx) (img : Image) (icon : KillfeedIconMatch)
    (position : ℕ)
    (hd : color_distance (pixelAt img (sample_x ctx icon position)) ctx.game.color_team1 ≠
          color_distance (pixelAt img (sample_x ctx icon position)) ctx.game.color_team2) :
    get_icon_team (ctxSwap ctx) img icon position =
      (get_icon_team ctx img icon position).map
        (fun t => if t = ctx.game.name_team1 then ctx.game.name_team2
                  else ctx.game.name_team1) := by
  by_cases hpos : position = 0 ∨ position = 1
  · have hsX : sample_x (ctxSwap ctx) icon position = sample_x ctx icon position := rfl
    simp only [get_icon_team, if_pos hpos, Option.map_some', hsX]
    unfold teamFromPixel ctxSwap
    rcases lt_or_gt_of_ne hd with h | h
    · rw [if_pos (le_of_lt h), if_neg (not_le.mpr h)]
      simp
    · rw [if_neg (not_le.mpr h), if_pos (le_of_lt h)]
      by_cases hname : ctx.game.name_team2 = ctx.game.name_team1
      · rw [if_pos hname, hname]
      · rw [if_neg hname]
  · simp [get_icon_team, hpos]

/-- C9 witness: at icon `icon9b` the sampled pixel is strictly closer to
team one's color, and swapping the reference colors swaps the produced
label. -/
theorem C9_swap_amended_witness :
    (color_distance (pixelAt img9 (sample_x ctx9 icon9b 0)) ctx9.game.color_team1 ≠
     color_distance (pixelAt img9 (sample_x ctx9 icon9b 0)) ctx9.game.color_team2) ∧
    get_icon_team (ctxSwap ctx9) img9 icon9b 0 =
      (get_icon_team ctx9 img9 icon9b 0).map
        (fun t => if t = ctx9.game.name_team1 then ctx9.game.name_team2
                  else ctx9.game.name_team1) :=
  ⟨by decide, C9_swap_amended ctx9 img9 icon9b 0 (by decide)⟩

/-- C6: when the threshold/edge filter accepts exactly one match,
`get_killfeed` returns no event if its column is left of
`KILLFEED_MAX_WIDTH - KILLFEED_CHARACTER2_MAX_WIDTH`, and otherwise a
self-elimination (suicide) event naming that single matched character. -/
theorem C6_single_match (ctx : Ctx) (canny : Image → List (List ℕ))
    (tmScore : ℕ → String → ℚ) (surface : String → List ℚ) (img : Image)
    (m : KillfeedIconMatch)
    (h : matchedIcons
          (validate_edge ctx.ICON_CHARACTER_HEIGHT ctx.KILLFEED_MAX_WIDTH canny img)
          (bestMatches
            (iconsWeights ctx.KILLFEED_MAX_WIDTH ctx.ICON_CHARACTER_WIDTH
              (validate_edge ctx.ICON_CHARACTER_HEIGHT ctx.KILLFEED_MAX_WIDTH canny img)
              tmScore surface ctx.templates)) = [m]) :
    (m.x < (ctx.KILLFEED_MAX_WIDTH : ℤ) - (ctx.KILLFEED_CHARACTER2_MAX_WIDTH : ℤ) →
      get_killfeed_compute ctx canny tmScore surface img = none) ∧
    (¬ m.x < (ctx.KILLFEED_MAX_WIDTH : ℤ) - (ctx.KILLFEED_CHARACTER2_MAX_WIDTH : ℤ) →
      get_killfeed_compute ctx canny tmScore surface img =
        some { sname := "test", time := ctx.time, character1 := none,
               character2 := some m.object_name, team1 := none,
               team2 := some (teamFromPixel ctx.game (pixelAt img (sample_x ctx m 1))),
               event := EventKind.suicide }) := by
  unfold get_killfeed_compute
  rw [h]
  constructor <;> intro hx
  · simp [decisionStep, hx]
  · simp [decisionStep, hx, generate_killfeed, get_icon_team]

/-- C6 witness: under `canny6`/`tmScore6` exactly one match (column 11,
score 9/10) is accepted; its column is not left of 50 - 45 = 5, and the
computed result is the suicide event naming it. -/
theorem C6_single_match_witness :
    (matchedIcons
      (validate_edge ctx6.ICON_CHARACTER_HEIGHT ctx6.KILLFEED_MAX_WIDTH canny6 img6)
      (bestMatches
        (iconsWeights ctx6.KILLFEED_MAX_WIDTH ctx6.ICON_CHARACTER_WIDTH
          (validate_edge ctx6.ICON_CHARACTER_HEIGHT ctx6.KILLFEED_MAX_WIDTH canny6 img6)
          tmScore6 surface0 ctx6.templates)) = [iconA6]) ∧
    ¬ (iconA6.x < (ctx6.KILLFEED_MAX_WIDTH : ℤ) - (ctx6.KILLFEED_CHARACTER2_MAX_WIDTH : ℤ)) ∧
    get_killfeed_compute ctx6 canny6 tmScore6 surface0 img6 =
      some { sname := "test", time := ctx6.time, character1 := none,
             character2 := some iconA6.object_name, team1 := none,
             team2 := some (teamFromPixel ctx6.game (pixelAt img6 (sample_x ctx6 iconA6 1))),
             event := EventKind.suicide } :=
  ⟨by decide, by decide,
    (C6_single_match ctx6 canny6 tmScore6 surface0 img6 iconA6 (by decide)).2 (by decide)⟩

/-- C10 counterexample: under `canny10`/`tmScore10` the pipeline accepts the
two matches at columns 2 and 9; the left-position icon sits at column 2,
whose team-classification sample column is 2 - 5 = -3, a negative index
(Python wraps it to the right end of the row), refuting the claim that the
left sample column `icon.x - 5` is always non-negative for matches accepted
through the edge mask. -/
theorem C10_left_sample_counterexample :
    matchedIcons
      (validate_edge ctx6.ICON_CHARACTER_HEIGHT ctx6.KILLFEED_MAX_WIDTH canny10 img6)
      (bestMatches
        (iconsWeights ctx6.KILLFEED_MAX_WIDTH ctx6.ICON_CHARACTER_WIDTH
          (validate_edge ctx6.ICON_CHARACTER_HEIGHT ctx6.KILLFEED_MAX_WIDTH canny10 img6)
          tmScore10 surface0 ctx6.templates))
      = [⟨"a", 9 / 10, 2⟩, ⟨"a", 8 / 10, 9⟩] ∧
    (validate_edge ctx6.ICON_CHARACTER_HEIGHT ctx6.KILLFEED_MAX_WIDTH canny10 img6).getD 2
      false = true ∧
    sample_x ctx6 ⟨"a", 9 / 10, 2⟩ 0 < 0 := by decide

/-- C10 (amended): every column marked valid by the edge mask lies in
`[2, W - 39]`; consequently the right-position sample column
`x + ICON_CHARACTER_WIDTH + 5` is in bounds for every edge-valid column
whenever the template width is at most 33, while the left-position sample
column `x - 5` is non-negative only under the extra assumption `5 ≤ x`
(edge-valid columns 2-4 produce negative sample columns). -/
theorem C10_sample_bounds (ih W : ℕ) (canny : Image → List (List ℕ)) (img : Image)
    (x : ℕ)
    (hx : (validate_edge ih W canny img).getD x false = true) :
    2 ≤ x ∧ x + 39 ≤ W ∧
    ∀ (ctx : Ctx) (n : String) (s : ℚ),
      (5 ≤ x → 0 ≤ sample_x ctx ⟨n, s, (x : ℤ)⟩ 0) ∧
      (ctx.ICON_CHARACTER_WIDTH ≤ 33 → sample_x ctx ⟨n, s, (x : ℤ)⟩ 1 < (W : ℤ)) := by
  obtain ⟨mid, hlen, hv⟩ := validate_edge_decomp ih W canny img
  rw [hv] at hx
  have hcons : ([false, false] ++ mid) ++ List.replicate 6 false
      = false :: false :: (mid ++ List.replicate 6 false) := by simp
  rw [hcons] at hx
  match x, hx with
  | 0, hx => cases hx
  | 1, hx => cases hx
  | (k + 2), hx =>
    rw [List.getD_cons_succ, List.getD_cons_succ] at hx
    have hk : k < mid.length := by
      by_contra hge
      rw [List.getD_append_right _ _ _ _ (not_lt.mp hge), replicate_false_getD] at hx
      cases hx
    refine ⟨by omega, by omega, ?_⟩
    intro ctx n s
    constructor
    · intro h5
      simp only [sample_x, if_pos rfl]
      omega
    · intro hiw
      have h1 : (1 : ℕ) ≠ 0 := by omega
      simp only [sample_x, if_neg h1]
      have : k + 2 + 39 ≤ W := by omega
      push_cast
      omega

/-- C10 witness: the bound facts instantiated at the edge-valid column 9 of
the concrete mask produced by `canny10` for a 50-pixel row. -/
theorem C10_sample_bounds_witness :
    ((validate_edge 6 50 canny10 img6).getD 9 false = true) ∧
    (2 ≤ 9 ∧ 9 + 39 ≤ 50 ∧
     ∀ (ctx : Ctx) (n : String) (s : ℚ),
       (5 ≤ 9 → 0 ≤ sample_x ctx ⟨n, s, (9 : ℤ)⟩ 0) ∧
       (ctx.ICON_CHARACTER_WIDTH ≤ 33 → sample_x ctx ⟨n, s, (9 : ℤ)⟩ 1 < (50 : ℤ))) :=
  ⟨by decide, C10_sample_bounds 6 50 canny10 img6 9 (by decide)⟩

/-! Lemmas about `insDesc`, `insertAll` and the top-3 scan. -/

/-- Membership in an `insDesc` insertion. -/
lemma mem_insDesc {a c : KillfeedIconMatch} {l : List KillfeedIconMatch} :
    a ∈ insDesc c l ↔ a = c ∨ a ∈ l := by
  induction l with
  | nil => simp [insDesc]
  | cons b bs ih =>
    by_cases h : c.score > b.score
    · simp [insDesc, h]
    · simp [insDesc, h, ih]
      tauto

/-- Length of an `insDesc` insertion. -/
lemma insDesc_length (c : KillfeedIconMatch) (l : List KillfeedIconMatch) :
    (insDesc c l).length = l.length + 1 := by
  induction l with
  | nil => rfl
  | cons b bs ih => by_cases h : c.score > b.score <;> simp [insDesc, h, ih]

/-- An `insDesc` insertion into a score-descending list is score-descending. -/
lemma insDesc_pairwise {c : KillfeedIconMatch} {l : List KillfeedIconMatch}
    (h : l.Pairwise (fun a b => b.score ≤ a.score)) :
    (insDesc c l).Pairwise (fun a b => b.score ≤ a.score) := by
  induction l with
  | nil => simp [insDesc]
  | cons b bs ih =>
    rw [List.pairwise_cons] at h
    by_cases hc : c.score > b.score
    · rw [insDesc, if_pos hc, List.pairwise_cons]
      refine ⟨?_, List.Pairwise.cons h.1 h.2⟩
      intro x hx
      rcases List.mem_cons.mp hx with rfl | hx
      · exact le_of_lt hc
      · exact le_trans (h.1 x hx) (le_of_lt hc)
    · rw [insDesc, if_neg hc, List.pairwise_cons]
      refine ⟨?_, ih h.2⟩
      intro x hx
      rcases mem_insDesc.mp hx with rfl | hx
      · exact not_lt.mp hc
      · exact h.1 x hx

/-- An `insDesc` insertion is a permutation of consing. -/
lemma insDesc_perm (c : KillfeedIconMatch) (l : List KillfeedIconMatch) :
    (insDesc c l).Perm (c :: l) := by
  induction l with
  | nil => exact List.Perm.refl _
  | cons b bs ih =>
    by_cases h : c.score > b.score
    · rw [insDesc, if_pos h]
    · rw [insDesc, if_neg h]
      exact (ih.cons b).trans (List.Perm.swap c b bs)

/-- `insertAll` is a permutation of appending the inserted items. -/
lemma insertAll_perm (items : List KillfeedIconMatch) :
    ∀ init : List KillfeedIconMatch, (insertAll items init).Perm (init ++ items) := by
  induction items with
  | nil => intro init; simp [insertAll]
  | cons c items ih =>
    intro init
    have h1 : insertAll (c :: items) init = insertAll items (insDesc c init) := rfl
    rw [h1]
    exact (ih (insDesc c init)).trans
      (((insDesc_perm c init).append_right items).trans List.perm_middle.symm)

/-- `insertAll` into a score-descending list is score-descending. -/
lemma insertAll_pairwise (items : List KillfeedIconMatch) :
    ∀ init : List KillfeedIconMatch,
      init.Pairwise (fun a b => b.score ≤ a.score) →
      (insertAll items init).Pairwise (fun a b => b.score ≤ a.score) := by
  induction items with
  | nil => intro init h; exact h
  | cons c items ih =>
    intro init h
    exact ih (insDesc c init) (insDesc_pairwise h)

/-- One step of the top-3 scan against the head of a list of length ≥ 3
agrees with taking the first three entries of an `insDesc` insertion. -/
lemma top3Step_insDesc (c l0 l1 l2 : KillfeedIconMatch) (rest : List KillfeedIconMatch) :
    tripleList (top3Step (l0, l1, l2) c) = (insDesc c (l0 :: l1 :: l2 :: rest)).take 3 := by
  by_cases h0 : c.score > l0.score
  · simp [top3Step, insDesc, h0, tripleList]
  · by_cases h1 : c.score > l1.score
    · simp [top3Step, insDesc, h0, h1, tripleList]
    · by_cases h2 : c.score > l2.score
      · simp [top3Step, insDesc, h0, h1, h2, tripleList]
      · simp [top3Step, insDesc, h0, h1, h2, tripleList]

/-- The top-3 fold tracks the first three entries of the `insDesc` fold. -/
lemma top3_foldl_insertAll (items : List KillfeedIconMatch) :
    ∀ (b : KillfeedIconMatch × KillfeedIconMatch × KillfeedIconMatch)
      (L : List KillfeedIconMatch),
      3 ≤ L.length → tripleList b = L.take 3 →
      tripleList (items.foldl top3Step b) = (insertAll items L).take 3 := by
  induction items with
  | nil => intro b L _ hb; simpa [insertAll] using hb
  | cons c items ih =>
    intro b L hlen hb
    rcases L with _ | ⟨l0, L⟩
    · simp at hlen
    rcases L with _ | ⟨l1, L⟩
    · simp at hlen
    rcases L with _ | ⟨l2, rest⟩
    · simp at hlen
    have hb2 : b = (l0, l1, l2) := by
      obtain ⟨b1, b2, b3⟩ := b
      simp only [tripleList, List.take] at hb
      injection hb with e1 hb
      injection hb with e2 hb
      injection hb with e3 hb
      rw [e1, e2, e3]
    have hfold : insertAll (c :: items) (l0 :: l1 :: l2 :: rest)
        = insertAll items (insDesc c (l0 :: l1 :: l2 :: rest)) := rfl
    rw [List.foldl_cons, hb2, hfold]
    refine ih (top3Step (l0, l1, l2) c) (insDesc c (l0 :: l1 :: l2 :: rest)) ?_ ?_
    · rw [insDesc_length]; simp
    · exact top3Step_insDesc c l0 l1 l2 rest

/-- C5: the selector's top-3 insertion scan computes exactly the first three
entries of the stable descending insertion sort of the candidate stream
seeded with the three placeholder matches: `insDesc` lets a new candidate
pass an existing entry only on a strictly greater score, so on equal scores
the earlier-seen candidate keeps its slot and its relative position.  The
sorted list is score-descending and is a permutation of the seeds plus the
candidates, so its first three entries are the 3 highest-scoring candidates
seen so far, with the tie-break favoring earlier-seen candidates. -/
theorem C5_top3_stable_sort (items : List KillfeedIconMatch) :
    tripleList (bestMatches items) =
      (insertAll items [seedMatch, seedMatch, seedMatch]).take 3 ∧
    (insertAll items [seedMatch, seedMatch, seedMatch]).Pairwise
      (fun a b => b.score ≤ a.score) ∧
    (insertAll items [seedMatch, seedMatch, seedMatch]).Perm
      (seedMatch :: seedMatch :: seedMatch :: items) := by
  refine ⟨?_, ?_, ?_⟩
  · exact top3_foldl_insertAll items (seedMatch, seedMatch, seedMatch)
      [seedMatch, seedMatch, seedMatch] (by simp) rfl
  · exact insertAll_pairwise items [seedMatch, seedMatch, seedMatch] (by simp)
  · simpa using insertAll_perm items [seedMatch, seedMatch, seedMatch]

/-! Lemmas about the non-maximal-suppression loop of the sparse scorer. -/

/-- Reading `pyNth` at a nonnegative index is a plain `getD`. -/
lemma pyNth_nonneg (l : List Bool) (i : ℤ) (h : 0 ≤ i) :
    pyNth l i = l.getD i.toNat false := by
  simp only [pyNth, if_neg (not_lt.mpr h), if_pos h]

/-- Length is preserved by `setTrue`. -/
lemma setTrue_length (mask : List Bool) (a b : ℕ) :
    (setTrue mask a b).length = mask.length := by
  simp [setTrue]

/-- Pointwise description of `setTrue` inside bounds. -/
lemma setTrue_getD (mask : List Bool) (a b j : ℕ) (hj : j < mask.length) :
    (setTrue mask a b).getD j false
      = if a ≤ j ∧ j < b then true else mask.getD j false := by
  unfold setTrue
  rw [List.getD_eq_getElem?_getD, List.getElem?_map, List.getElem?_range hj]
  rfl

/-- Length is preserved by `nmsMask`. -/
lemma nmsMask_length (mask : List Bool) (x : ℤ) :
    (nmsMask mask x).length = mask.length := setTrue_length _ _ _

/-- Marking a suppression window never clears an already-set mask entry. -/
lemma pyNth_nmsMask_mono (mask : List Bool) (x y : ℤ)
    (h : pyNth mask y = true) : pyNth (nmsMask mask x) y = true := by
  unfold pyNth at h ⊢
  rw [nmsMask_length]
  set j := if y < 0 then y + (mask.length : ℤ) else y with hj
  by_cases h0 : 0 ≤ j
  · rw [if_pos h0] at h ⊢
    by_cases hlt : j.toNat < mask.length
    · rw [nmsMask, setTrue_getD _ _ _ _ hlt]
      rw [h]
      split <;> rfl
    · rw [List.getD_eq_default _ _ (not_lt.mp hlt)] at h
      cases h
  · rw [if_neg h0] at h
    cases h

/-- A column left unmasked by a suppression window centered at a
nonnegative column `x` lies strictly outside `[x - 5, x + 5)`. -/
lemma pyNth_nmsMask_false (mask : List Bool) (x y : ℤ)
    (hy0 : 0 ≤ y) (hylen : y < (mask.length : ℤ)) (hx0 : 0 ≤ x)
    (h : pyNth (nmsMask mask x) y = false) :
    y < x - 5 ∨ x + 5 ≤ y := by
  rw [pyNth_nonneg _ _ hy0] at h
  have hjlen : y.toNat < mask.length := by omega
  rw [nmsMask, setTrue_getD _ _ _ _ hjlen] at h
  by_cases hw : (max 0 (x - 5)).toNat ≤ y.toNat ∧
      y.toNat < (min (mask.length : ℤ) (x + 5)).toNat
  · rw [if_pos hw] at h
    cases h
  · have ea : ((max 0 (x - 5)).toNat : ℤ) = max 0 (x - 5) :=
      Int.toNat_of_nonneg (le_max_left 0 _)
    have eb : ((min (mask.length : ℤ) (x + 5)).toNat : ℤ) = min (mask.length : ℤ) (x + 5) :=
      Int.toNat_of_nonneg (le_min (by omega) (by omega))
    rcases not_and_or.mp hw with hlt | hge
    · left
      have : y < max 0 (x - 5) := by omega
      rcases lt_max_iff.mp this with h1 | h1
      · omega
      · exact h1
    · right
      have : min (mask.length : ℤ) (x + 5) ≤ y := by omega
      rcases min_le_iff.mp this with h1 | h1
      · omega
      · exact h1

/-- Every match accepted by the suppression loop comes from its input. -/
lemma nmsLoop_subset :
    ∀ (l : List KillfeedIconMatch) (mask : List Bool) (b : KillfeedIconMatch),
      b ∈ nmsLoop l mask → b ∈ l := by
  intro l
  induction l with
  | nil => intro mask b hb; simp [nmsLoop] at hb
  | cons m rest ih =>
    intro mask b hb
    unfold nmsLoop at hb
    by_cases h : pyNth mask m.x = true
    · rw [if_pos h] at hb
      exact List.mem_cons_of_mem m (ih mask b hb)
    · rw [if_neg h] at hb
      rcases List.mem_cons.mp hb with rfl | hb
      · exact List.mem_cons_self b rest
      · exact List.mem_cons_of_mem m (ih (nmsMask mask m.x) b hb)

/-- Every match accepted by the suppression loop has an unmasked column in
the mask the loop started from. -/
lemma nmsLoop_unmasked :
    ∀ (l : List KillfeedIconMatch) (mask : List Bool) (b : KillfeedIconMatch),
      b ∈ nmsLoop l mask → pyNth mask b.x = false := by
  intro l
  induction l with
  | nil => intro mask b hb; simp [nmsLoop] at hb
  | cons m rest ih =>
    intro mask b hb
    unfold nmsLoop at hb
    by_cases h : pyNth mask m.x = true
    · rw [if_pos h] at hb
      exact ih mask b hb
    · rw [if_neg h] at hb
      rcases List.mem_cons.mp hb with rfl | hb
      · exact Bool.eq_false_iff.mpr h
      · have h2 := ih (nmsMask mask m.x) b hb
        cases hmb : pyNth mask b.x
        · rfl
        · rw [pyNth_nmsMask_mono mask m.x b.x hmb] at h2
          cases h2

/-- Accepted matches of the suppression loop are pairwise at least 5
columns apart, provided every candidate's column is within the mask. -/
lemma nmsLoop_pairwise :
    ∀ (l : List KillfeedIconMatch) (mask : List Bool),
      (∀ m ∈ l, 0 ≤ m.x ∧ m.x < (mask.length : ℤ)) →
      (nmsLoop l mask).Pairwise (fun a b => 5 ≤ (a.x - b.x).natAbs) := by
  intro l
  induction l with
  | nil => intro mask _; simp [nmsLoop]
  | cons m rest ih =>
    intro mask hb
    unfold nmsLoop
    by_cases h : pyNth mask m.x = true
    · rw [if_pos h]
      exact ih mask (fun x hx => hb x (List.mem_cons_of_mem m hx))
    · rw [if_neg h]
      refine List.Pairwise.cons ?_ (ih (nmsMask mask m.x) ?_)
      · intro b hbm
        have hbf := nmsLoop_unmasked rest (nmsMask mask m.x) b hbm
        have hbl := nmsLoop_subset rest (nmsMask mask m.x) b hbm
        have hbx := hb b (List.mem_cons_of_mem m hbl)
        have hmx := hb m (List.mem_cons_self m rest)
        have := pyNth_nmsMask_false mask m.x b.x hbx.1 hbx.2 hmx.1 hbf
        omega
      · intro m2 hm2
        rw [nmsMask_length]
        exact hb m2 (List.mem_cons_of_mem m hm2)

/-- Every candidate produced by `result_raw` has its column inside the edge
mask. -/
lemma resultRaw_bounds (edge : List Bool) (tmScore : ℕ → String → ℚ)
    (templates : List String) (m : KillfeedIconMatch)
    (h : m ∈ resultRaw edge tmScore templates) :
    0 ≤ m.x ∧ m.x < (edge.length : ℤ) := by
  unfold resultRaw at h
  rw [List.mem_filterMap] at h
  obtain ⟨x, hx, hsome⟩ := h
  rw [List.mem_range] at hx
  by_cases he : edge.getD x false = true
  · rw [if_pos he] at hsome
    obtain rfl := Option.some_injective _ hsome
    constructor
    · show (0 : ℤ) ≤ (x : ℤ)
      exact Int.ofNat_nonneg x
    · show (x : ℤ) < (edge.length : ℤ)
      exact_mod_cast hx
  · rw [if_neg he] at hsome
    cases hsome

/-- Membership in the stable sort equals membership in its input. -/
lemma mem_sortDesc {a : KillfeedIconMatch} {l : List KillfeedIconMatch} :
    a ∈ sortDesc l ↔ a ∈ l := by
  unfold sortDesc
  constructor
  · intro h
    have := (insertAll_perm l []).mem_iff.mp h
    simpa using this
  · intro h
    refine (insertAll_perm l []).mem_iff.mpr ?_
    simpa using h

set_option maxRecDepth 4000 in
/-- C4 counterexample: the claimed ±5 exclusion fails.  In the sparse
scorer, candidates at columns 6 and 11 (5 pixels apart) are both accepted:
the suppression window of the accepted match at column 6 covers only
columns 1-10, so the later candidate at column 11 survives.  In the dense
scorer the suppression is per template only: two templates sharing the peak
column 3 both record a match there, 0 pixels apart. -/
theorem C4_counterexample :
    iconsWeightsDiscrete edgeC4 tmScoreC4 ["a"]
      = [⟨"a", 9 / 10, 6⟩, ⟨"a", 8 / 10, 11⟩] ∧
    ((11 : ℤ) - 6).natAbs ≤ 5 ∧
    iconsWeightsFull 50 38 edgeF4 surfF4 ["a", "b"]
      = [⟨"a", 9 / 10, 3⟩, ⟨"b", 9 / 10, 3⟩] := by decide

/-- C4 (amended): in the sparse scorer no two accepted matches have columns
within 4 pixels of each other: once a match at column `x` is accepted, every
later candidate with column in `[x - 5, x + 4]` is suppressed, so the
columns of any two accepted matches differ by at least 5 (and exactly 5 is
possible, the later match to the right).  The dense scorer's suppression is
per-template only and gives no cross-template separation. -/
theorem C4_sparse_min_separation (edge : List Bool) (tmScore : ℕ → String → ℚ)
    (templates : List String) :
    (iconsWeightsDiscrete edge tmScore templates).Pairwise
      (fun a b => 5 ≤ (a.x - b.x).natAbs) := by
  unfold iconsWeightsDiscrete
  apply nmsLoop_pairwise
  intro m hm
  rw [List.length_replicate]
  exact resultRaw_bounds edge tmScore templates m (mem_sortDesc.mp hm)

end ORA
